import Mathlib

/-!
Verification development for the crystal-nugs-voice-ai repository.

The repository is a set of near-duplicate Node.js servers bridging Twilio
Conversation Relay websockets to local intent rules and OpenAI.  This file
gives a shallow embedding of the parts of the source the claims C1-C10 are
about, and proves or refutes each claim.

Embedding conventions:
- JS strings are Lean `String`s; regular-expression tests from the source are
  translated into explicit character-list scanners (word boundary `\b` is
  modelled by `isWordChar` transitions, exactly as in JS `\w`).
- JS numbers holding money amounts and lead minutes are modelled as `ℚ`.
  Non-integral literals are written in normalised constructor form
  (`Rat.mk' 199 100` is the literal `1.99`) so that closed theorems can be
  checked by `decide`.  `NaN`/missing numeric fields are modelled by `Option`.
- `process.env` is taken to be unset, so every configurable string has its
  default value from the source; table data that the environment can override
  is passed as an explicit parameter.
- Fallible operations (file reads, fetches, `JSON.parse`) are modelled by
  `Except String`; the parse outcome of an inbound frame is part of the frame
  value, since `JSON.parse` itself is external to the claims.
-/

/-! ## Basic character and string helpers -/

/-- Word character in the sense of the JS regex `\w` class: `[A-Za-z0-9_]`. -/
def isWordChar (c : Char) : Bool :=
  c.isAlphanum || c = '_'

/-- JS `String.prototype.toLowerCase` (ASCII; the business strings only use
ASCII letters plus punctuation that is unaffected). -/
def strLower (s : String) : String :=
  ⟨s.data.map Char.toLower⟩

/-- JS `String.prototype.trim`: drop leading and trailing whitespace. -/
def strTrim (s : String) : String :=
  ⟨((s.data.dropWhile Char.isWhitespace).reverse.dropWhile Char.isWhitespace).reverse⟩

/-- JS `String(x).replace(/\D/g, "")` (also `/[^\d]/g`): keep only digits. -/
def stripNonDigits (s : String) : String :=
  ⟨s.data.filter Char.isDigit⟩

/-- JS `/^\d{5}$/.test z`: exactly five digits. -/
def isFiveDigits (z : String) : Bool :=
  (z.data.length == 5) && z.data.all Char.isDigit

/-- Exact prefix test on character lists (case-sensitive). -/
def listPrefix : List Char → List Char → Bool
  | [], _ => true
  | _ :: _, [] => false
  | p :: ps, c :: cs => (p == c) && listPrefix ps cs

/-- Case-insensitive prefix test: the pattern is stored lower-case. -/
def listPrefixCI : List Char → List Char → Bool
  | [], _ => true
  | _ :: _, [] => false
  | p :: ps, c :: cs => (p == c.toLower) && listPrefixCI ps cs

/-- JS `\b` between the previous character (none at string start) and the
next character: a word/non-word transition. -/
def boundaryL (prev : Option Char) (c : Char) : Bool :=
  match prev with
  | none => isWordChar c
  | some p => isWordChar p != isWordChar c

/-- JS `\b` after a match of `pat` inside `s` (placed at the start of `s`). -/
def boundaryREnd (pat s : List Char) : Bool :=
  match pat.getLast?, (s.drop pat.length).head? with
  | none, _ => true
  | some lc, none => isWordChar lc
  | some lc, some d => isWordChar lc != isWordChar d

/-- Scanner for one regex alternative: does `pat` occur in the scanned list,
optionally requiring a word boundary before (`wb`) and/or after (`we`)? -/
def occursGo (wb we : Bool) (pat : List Char) : Option Char → List Char → Bool
  | _, [] => false
  | prev, c :: r =>
    (((!wb) || boundaryL prev c) && listPrefix pat (c :: r)
      && ((!we) || boundaryREnd pat (c :: r)))
    || occursGo wb we pat (some c) r

/-- Plain substring test (a regex alternative with no `\b` on either side). -/
def containsSub (s pat : String) : Bool :=
  occursGo false false pat.data none s.data

/-- Substring with a leading `\b`. -/
def containsWB (s pat : String) : Bool :=
  occursGo true false pat.data none s.data

/-- Substring with a trailing `\b`. -/
def containsWE (s pat : String) : Bool :=
  occursGo false true pat.data none s.data

/-- Substring with `\b` on both sides. -/
def containsWBWE (s pat : String) : Bool :=
  occursGo true true pat.data none s.data

/-- Scanner for the `\bwhat.*minimum\b` regex alternative: a `\b`-anchored
`what`, any characters, then `minimum` followed by `\b`.  (JS `.` excludes
newlines; caller utterances carry none.) -/
def whatMinGo : Option Char → List Char → Bool
  | _, [] => false
  | prev, c :: r =>
    (boundaryL prev c && listPrefix "what".data (c :: r)
      && occursGo false true "minimum".data none (r.drop 3))
    || whatMinGo (some c) r

/-- Test for the regex alternative `what.*minimum` inside `\b( ... )\b`. -/
def whatMinTest (q : String) : Bool :=
  whatMinGo none q.data

/-- Does a `\b\d{5}\b` match start at the head of `s` (given the previous
character)? -/
def zipHere (prev : Option Char) (s : List Char) : Bool :=
  (match prev with | none => true | some p => !(isWordChar p))
  && ((s.take 5).length == 5)
  && (s.take 5).all Char.isDigit
  && (match (s.drop 5).head? with | none => true | some d => !(isWordChar d))

/-- Scanner for `String.match(/\b\d{5}\b/g)`: all matches, in order.  The
`Nat` argument is the number of already-consumed characters of the current
match still to skip. -/
def zipGo : Option Char → Nat → List Char → List (List Char)
  | _, _, [] => []
  | _, skip+1, c :: r => zipGo (some c) skip r
  | prev, 0, c :: r =>
    if zipHere prev (c :: r) then ((c :: r).take 5) :: zipGo (some c) 4 r
    else zipGo (some c) 0 r

/-- JS `s.match(/\b\d{5}\b/g) || []`, as a list of matched strings. -/
def fiveDigitMatches (s : String) : List String :=
  (zipGo none 0 s.data).map String.mk

/-- JS `extractZip` (part_000 line 583, part_003 line 795): first
`\b\d{5}\b` match, or null. -/
def extractZip (text : String) : Option String :=
  (fiveDigitMatches text).head?

/-- First-seen-order deduplication with an explicit seen set: the behaviour
of inserting into a JS `Set` while iterating. -/
def firstDedupFrom : List String → List String → List String
  | _, [] => []
  | seen, z :: rest =>
    if z ∈ seen then firstDedupFrom seen rest
    else z :: firstDedupFrom (z :: seen) rest

/-- JS `[...new Set(list)]`: duplicates removed, first-seen order kept. -/
def firstDedup (l : List String) : List String :=
  firstDedupFrom [] l

/-- JS `speakZip` (part_000 line 577): digits only, first five, joined with
hyphens. -/
def speakZip (zip : String) : String :=
  String.intercalate "-" (((stripNonDigits zip).data.take 5).map (fun c => String.mk [c]))

/-- JS `zipDashed` (server.js line 676): digits only, joined with hyphens. -/
def zipDashed (zip : String) : String :=
  String.intercalate "-" ((stripNonDigits zip).data.map (fun c => String.mk [c]))

/-! ## Money formatting -/

/-- Two-digit rendering of a value below 100 (the fractional part produced by
`toFixed(2)`). -/
def twoDigits (k : ℕ) : String :=
  if k < 10 then "0" ++ toString k else toString k

/-- Decimal string of a nonnegative amount of cents, with two forced
decimals: the body of `Number.prototype.toFixed(2)`. -/
def toFixed2Nat (n : ℕ) : String :=
  toString (n / 100) ++ "." ++ twoDigits (n % 100)

/-- Rounded number of cents of a rational: `round (q * 100)` computed on the
numerator and denominator so that it evaluates by machine integer arithmetic.
`toFixed` rounds to nearest and breaks ties upward, which is `⌊x + 1/2⌋`;
`/` on `ℤ` is floor division here since the divisor is positive. -/
def roundCents (q : ℚ) : ℤ :=
  (200 * q.num + (q.den : ℤ)) / (2 * (q.den : ℤ))

/-- JS `x.toFixed(2)`.  Exact for every amount in the repository (all have an
exact two-decimal representation, so no rounding occurs). -/
def toFixed2 (q : ℚ) : String :=
  let n := roundCents q
  if n < 0 then "-" ++ toFixed2Nat (-n).toNat else toFixed2Nat n.toNat

/-- JS `s.endsWith(t)`. -/
def strEndsWith (s suff : String) : Bool :=
  listPrefix suff.data.reverse s.data.reverse

/-- Drop the last `n` characters of a string (the effect of
`parseInt(s, 10)` on a `"<digits>.00"` string is to keep all but the last
three characters). -/
def strDropRight (s : String) (n : ℕ) : String :=
  ⟨s.data.take (s.data.length - n)⟩

/-- JS `formatMoney` (part_000 line 594, part_003 line 804):
`toFixed(2)`, then drop a trailing `".00"` via `parseInt`.  The `NaN` guard
of the source cannot fire on a `ℚ` input and is omitted. -/
def formatMoney (q : ℚ) : String :=
  let s := toFixed2 q
  if strEndsWith s ".00" then "$" ++ strDropRight s 3 else "$" ++ s

/-- Characters dropped from the right while stripping trailing zeros. -/
def stripTrailZeros (s : String) : String :=
  ⟨(s.data.reverse.dropWhile (fun c => c = '0')).reverse⟩

/-- Template-literal stringification of a JS number (`${item.minimum}`):
integers print without decimals, other amounts with their (at most two, for
every amount in the repository) decimals.  The final branch is unreachable
for repository data and is a conservative stand-in for JS shortest-roundtrip
printing. -/
def jsNumToString (q : ℚ) : String :=
  if q.den = 1 then toString q.num
  else if q.den ∣ 100 then stripTrailZeros (toFixed2 q)
  else toString q.num ++ "/" ++ toString q.den

/-! ## Pricing table data model (part_000 segment A and server.js segment 3)

Rows of the loaded table are JS objects `{ min, fee, lead, lastCall }`.
`min` and `fee` are finite numbers (rows failing `Number.isFinite` are
discarded before insertion); `lead`/`lastCall` are `null` when the source
field is missing and may be `NaN` when present but unparseable — both cases
behave identically downstream (`Number.isFinite` guards every read), so both
are modelled as `none`. -/

structure ZRow where
  min : ℚ
  fee : ℚ
  lead : Option ℚ
  lastCall : Option ℚ
deriving DecidableEq, Repr

/-- The in-memory `ZIP_TABLE` (a JS `Map`), as an insertion-ordered
association list with unique keys. -/
abbrev ZipTable := List (String × ZRow)

/-- JS `Map.prototype.get`. -/
def lookupTbl : ZipTable → String → Option ZRow
  | [], _ => none
  | (k, v) :: rest, z => if k = z then some v else lookupTbl rest z

/-- JS `Map.prototype.set`: replace in place if the key exists, else append. -/
def mapSet (m : ZipTable) (k : String) (v : ZRow) : ZipTable :=
  if (lookupTbl m k).isSome then
    m.map (fun p => if p.1 = k then (k, v) else p)
  else m ++ [(k, v)]

/-- A source row after `normHeaders` (part_000 line 66): the header-synonym
resolution has already picked out the five canonical fields.  `zipcode` is
the raw postal-code field as a string (`String(zipcode || "")` stringifies a
numeric field); `min`/`fee`/`lead`/`lastCall` are the `parseFloat` results,
with `none` for a missing field or a non-finite parse. -/
structure NormRow where
  zipcode : Option String
  min : Option ℚ
  fee : Option ℚ
  lead : Option ℚ
  lastCall : Option ℚ
deriving DecidableEq, Repr

/-- Parsed top-level structure of a `.json` pricing document: either an array
of rows or an object keyed by postal code (part_000 lines 82-85). -/
inductive JsonTop where
  | arr (rows : List NormRow)
  | obj (entries : List (String × NormRow))
deriving DecidableEq, Repr

/-- JS `Object.entries(data).map(([zipcode, v]) => ({ zipcode, ...v }))`:
the object key serves as the `zipcode` field unless the value carries its
own postal-code field (the spread overrides the key). -/
def rowsOfTop : JsonTop → List NormRow
  | .arr rows => rows
  | .obj entries =>
    entries.map (fun p => { p.2 with zipcode := p.2.zipcode.orElse (fun _ => some p.1) })

/-- Row-insertion step of `parseZipTable` (part_000 lines 86-96): clean the
postal code, discard unless exactly five digits, discard unless `min` and
`fee` are finite, else `map.set`. -/
def insertRow (m : ZipTable) (r : NormRow) : ZipTable :=
  let z := stripNonDigits (r.zipcode.getD "")
  if isFiveDigits z then
    match r.min, r.fee with
    | some mv, some fv => mapSet m z ⟨mv, fv, r.lead, r.lastCall⟩
    | _, _ => m
  else m

/-- The row loop of `parseZipTable`, starting from the empty map. -/
def insertRows (rows : List NormRow) : ZipTable :=
  rows.foldl insertRow []

/-- Row-insertion step of `loadZipTable` (server.js lines 644-653 and
657-666): same as `insertRow` except the only postal-code check is
`if (!z) continue` — any non-empty cleaned code is accepted. -/
def insertRowLoose (m : ZipTable) (r : NormRow) : ZipTable :=
  let z := stripNonDigits (r.zipcode.getD "")
  if z = "" then m
  else
    match r.min, r.fee with
    | some mv, some fv => mapSet m z ⟨mv, fv, r.lead, r.lastCall⟩
    | _, _ => m

/-- The row loop of server.js `loadZipTable`. -/
def insertRowsLoose (rows : List NormRow) : ZipTable :=
  rows.foldl insertRowLoose []

/-- JS `loadZipTable(filePath)` of server.js (lines 633-674): the same
shape as `parseZipTable` but with the loose row loop, and with an
unsupported extension only logging a warning and installing the empty map
(the file read happens before this and its failure rejects the caller's
promise separately). -/
def loadZipTableV3 (ext : String) (jsonParsed : Except String JsonTop)
    (csvRows : List NormRow) : Except String ZipTable :=
  if ext = ".json" then
    match jsonParsed with
    | .ok doc => .ok (insertRowsLoose (rowsOfTop doc))
    | .error e => .error e
  else if ext = ".csv" then .ok (insertRowsLoose csvRows)
  else .ok []

/-- JS `parseZipTable(raw, ext)` (part_000 lines 79-114).  The `.json`
branch runs `JSON.parse` (its outcome is the `jsonParsed` argument; a throw
rejects the load) and inserts the rows; the `.csv` branch parses the text
with `parseCsv` (never throws; its row list is the `csvRows` argument) and
runs the identical row loop; any other extension throws. -/
def parseZipTable (ext : String) (jsonParsed : Except String JsonTop)
    (csvRows : List NormRow) : Except String ZipTable :=
  if ext = ".json" then
    match jsonParsed with
    | .ok doc => .ok (insertRows (rowsOfTop doc))
    | .error e => .error e
  else if ext = ".csv" then .ok (insertRows csvRows)
  else .error ("Unsupported data extension: " ++ ext ++ " (use .json or .csv)")

/-- Outcome of `fetch(url)` as far as `loadZipTableFromUrl` inspects it:
the `ok` flag and status, plus the parse outcomes of the body text. -/
structure FetchResult where
  ok : Bool
  status : Nat
  urlCsv : Bool
  jsonParsed : Except String JsonTop
  csvRows : List NormRow

/-- JS `loadZipTableFromUrl` (part_000 lines 123-129): a non-2xx response
throws `Fetch failed <status>`, else the body is parsed with the extension
sniffed from the URL. -/
def loadZipTableFromUrl (fr : FetchResult) : Except String ZipTable :=
  if fr.ok then
    parseZipTable (if fr.urlCsv then ".csv" else ".json") fr.jsonParsed fr.csvRows
  else .error ("Fetch failed " ++ toString fr.status)

/-- Outcome of `fs.readFile` plus the parse outcomes of the file body, for
`loadZipTableFromFile` (part_000 lines 116-121). -/
structure FileBody where
  ext : String
  jsonParsed : Except String JsonTop
  csvRows : List NormRow

/-- JS `loadZipTableFromFile`: an unreadable file rejects; otherwise parse
with the file extension. -/
def loadZipTableFromFile (readResult : Except String FileBody) : Except String ZipTable :=
  match readResult with
  | .error e => .error e
  | .ok body => parseZipTable body.ext body.jsonParsed body.csvRows

/-- JS `bootZipTable` (part_000 lines 131-144): attempt the configured load
(URL or file — its outcome is the argument); on any rejection log the error
and set `ZIP_TABLE = new Map()`. -/
def bootZipTable (loadResult : Except String ZipTable) : ZipTable :=
  match loadResult with
  | .ok t => t
  | .error _ => []

/-- Boot flow of server.js segment 3 (lines 606 and 800-804): `ZIP_TABLE`
starts as `new Map()`; the `app.listen` callback runs
`loadZipTable(path).catch(console.error)`, so on rejection the table keeps
its initial empty value. -/
def bootListenV3 (loadResult : Except String ZipTable) : ZipTable :=
  match loadResult with
  | .ok t => t
  | .error _ => ([] : ZipTable)

/-! ## ETA phrases and zip record builders -/

/-- JS `deliveryTimeText(row)` (part_000 lines 149-155).  The guard
`Number.isFinite(row?.lead) ? row.lead : null` is the `Option` in
`ZRow.lead`. -/
def deliveryTimeText (row : ZRow) : String :=
  match row.lead with
  | none => "Generally 30 min to 2 hours"
  | some l =>
    if l = 0 then "Generally 30 min to 2 hours"
    else if l ≤ 30 then "Generally 1 hour to 2 hours"
    else if 90 ≤ l then "Generally 1 and a half hours to 2 and a half hours"
    else "Generally 1 hour to 2 hours"

/-- JS `deliveryTimeFromLead(lead)` (server.js lines 681-686). -/
def deliveryTimeFromLead (lead : Option ℚ) : String :=
  match lead with
  | none => "Generally 30 min to 2 hours"
  | some l =>
    if l ≤ 0 then "Generally 30 min to 2 hours"
    else if l ≤ 30 then "Generally 1 hour to 2 hours"
    else if l ≤ 45 then "Generally 1 and a half hours to 2 and a half hours"
    else "Generally 1 hour to 2 hours"

/-- The record `{ zip, fee, minimum, deliveryTime }` returned by
`buildZipRecord`/`buildZipJSON`. -/
structure ZipJSON where
  zip : String
  fee : ℚ
  minimum : ℚ
  deliveryTime : String
deriving DecidableEq, Repr

/-- JS `buildZipRecord(zip)` (part_000 lines 160-170). -/
def buildZipRecord (tbl : ZipTable) (zip : String) : Option ZipJSON :=
  let z := stripNonDigits zip
  match lookupTbl tbl z with
  | none => none
  | some row => some ⟨z, row.fee, row.min, deliveryTimeText row⟩

/-- Loop body of JS `buildZipArray` (part_000 lines 172-185), with the
accumulated `seen` set explicit. -/
def buildZipArrayGo (tbl : ZipTable) : List String → List String → List ZipJSON
  | _, [] => []
  | seen, raw :: rest =>
    let z := stripNonDigits raw
    if isFiveDigits z = false ∨ z ∈ seen then buildZipArrayGo tbl seen rest
    else
      match buildZipRecord tbl z with
      | some rec => rec :: buildZipArrayGo tbl (z :: seen) rest
      | none => buildZipArrayGo tbl seen rest

/-- JS `buildZipArray(zips)`. -/
def buildZipArray (tbl : ZipTable) (zips : List String) : List ZipJSON :=
  buildZipArrayGo tbl [] zips

/-- JS `buildZipJSON(zip)` (server.js lines 688-698); identical to
`buildZipRecord` except the ETA phrase comes from `deliveryTimeFromLead`. -/
def buildZipJSON (tbl : ZipTable) (zip : String) : Option ZipJSON :=
  let z := stripNonDigits zip
  match lookupTbl tbl z with
  | none => none
  | some row => some ⟨z, row.fee, row.min, deliveryTimeFromLead row.lead⟩

/-- JS `buildZipSpoken(zip)` (server.js lines 700-706). -/
def buildZipSpoken (tbl : ZipTable) (zip : String) : String :=
  match buildZipJSON tbl zip with
  | none =>
    "For zip code " ++ zipDashed zip ++
      ", I couldn\x27t find a delivery zone. Can you try another zip code?"
  | some item =>
    "For zip code " ++ zipDashed item.zip ++ ", the delivery minimum is $" ++
      jsNumToString item.minimum ++ ", the delivery fee is $" ++ toFixed2 item.fee ++
      ", and the delivery time is " ++ item.deliveryTime ++ "."

/-- JS `JSON.stringify` of one `buildZipJSON` record (insertion key order;
the strings in play need no escaping). -/
def jsonStringifyItem (i : ZipJSON) : String :=
  "\x7b\"zip\":\"" ++ i.zip ++ "\",\"fee\":" ++ jsNumToString i.fee ++
    ",\"minimum\":" ++ jsNumToString i.minimum ++ ",\"deliveryTime\":\"" ++
    i.deliveryTime ++ "\"\x7d"

/-- JS `JSON.stringify` of a list of records. -/
def jsonStringifyItems (items : List ZipJSON) : String :=
  "[" ++ String.intercalate "," (items.map jsonStringifyItem) ++ "]"

/-- The `GET /zones` handler (server.js lines 739-743):
`(q.match(/\b\d{5}\b/g) || []).map(buildZipJSON).filter(Boolean)`. -/
def zonesList (tbl : ZipTable) (q : String) : List ZipJSON :=
  (fiveDigitMatches q).filterMap (buildZipJSON tbl)

/-! ## Variant 1 (server.js first segment): local intents + chat fallback

The environment is unset, so every business fact has its default value.
`HOURS_V1` … `MAP_URL_V1` are the locals of `handleLocalIntent`
(server.js lines 150-165); `CN_HOURS` … `CN_DELIVERY` are the module-level
constants (lines 24-26) used by the upstream-failure fallback sentence. -/

def HOURS_V1 : String :=
  "Our dispensary is open daily from 9:00 AM to 9:00 PM, and we take delivery orders from 8:30 AM to 8:30 PM."

def ADDRESS_V1 : String := "2300 J Street, Sacramento, CA 95816"

def ID_RULES_V1 : String :=
  "You’ll need a valid government-issued photo ID and be at least 21+."

def DELIVERY_V1 : String :=
  "We deliver to Midtown and the greater Sacramento area including Citrus Heights, Roseville, Lincoln, Folsom, Elk Grove, and more. Share your address to confirm delivery."

def DELIV_MIN_V1 : String :=
  "Order minimums depend on where you’re located — for the immediate Sacramento area, it’s just $40."

def DELIV_FEE_V1 : String :=
  "Enjoy fast delivery for just $1.99 on most orders."

def LAST_CALL_V1 : String :=
  "Last call for delivery is 8:15 PM daily. Orders placed after that time, or from distant locations, may be scheduled for the next day — so get your orders in early!"

def MED_PTS_V1 : String :=
  "We also accept verified medical patients ages 18+ with a valid recommendation."

def PARKING_V1 : String :=
  "Plenty of street parking available right on J Street and 23rd — easy access to the shop!"

def PAYMENT_V1 : String :=
  "We accept cash and JanePay for both in-store and delivery orders. And if you need cash, no worries — we’ve got two ATMs right inside the dispensary."

def SPECIALS_V1 : String :=
  "To check out today’s deals, just visit crystalnugs.com — our daily specials will appear automatically. Deals change every single day, so don’t miss out!"

def RETURNS_V1 : String :=
  "In accordance with California DCC regulations, Crystal Nugs may exchange most defective products within 24 hours of purchase when returned in their original packaging and accompanied by a valid receipt. Exchanges are limited to products verified as defective and purchased directly from our dispensary. For more details on eligible items and procedures, please visit the FAQ section on our website."

def VENDOR_INFO_V1 : String :=
  "Vendors and brands looking to collaborate with Crystal Nugs can email chris@crystalnugs.com with your catalog, absolute best pricing structure, and what sets your brand apart. Our purchasing team reviews all submissions weekly and will reach out directly if your products are a fit for our dispensary lineup."

def VENDOR_DEMO_V1 : String :=
  "If you’d like to schedule an in-store demo or brand activation at Crystal Nugs, please email our demo coordinator at gummiegrannie72@gmail.com with your preferred dates, time slots, and sample information. Our events team will confirm availability and handle compliance details."

def MAP_URL_V1 : String :=
  "https://maps.google.com/?q=2300+J+Street,+Sacramento,+CA+95816"

/-- Module-level `CN_HOURS` (server.js line 24) — same default as the local. -/
def CN_HOURS : String := HOURS_V1

/-- Module-level `CN_ADDRESS` (line 23). -/
def CN_ADDRESS : String := ADDRESS_V1

/-- Module-level `CN_ID_RULES` (line 25). -/
def CN_ID_RULES : String := ID_RULES_V1

/-- Module-level `CN_DELIVERY` (line 26; note the comma after "area" and the
shorter closing sentence, unlike the local `DELIVERY`). -/
def CN_DELIVERY : String :=
  "We deliver to Midtown and the greater Sacramento area, including Citrus Heights, Roseville, Lincoln, Folsom, Elk Grove, and more. Share your address to confirm."

/-- JS `/\bhour|open|close|when\b/.test q` (server.js line 168): the `\b`
binds only to the first alternative and the final `\b` only to the last. -/
def hoursTest (q : String) : Bool :=
  containsWB q "hour" || containsSub q "open" || containsSub q "close" || containsWE q "when"

/-- JS `/\baddress|location|where|directions|how to get\b/.test q` (line 174). -/
def addressTest (q : String) : Bool :=
  containsWB q "address" || containsSub q "location" || containsSub q "where"
    || containsSub q "directions" || containsWE q "how to get"

/-- JS `/\bid|identification|age|21\b/.test q` (line 180). -/
def idTest (q : String) : Bool :=
  containsWB q "id" || containsSub q "identification" || containsSub q "age"
    || containsWE q "21"

/-- JS `/\bdeliver|delivery|zone|area|radius|how far|minimum|fee|charge\b/.test q`
(line 186). -/
def deliveryTestV1 (q : String) : Bool :=
  containsWB q "deliver" || containsSub q "delivery" || containsSub q "zone"
    || containsSub q "area" || containsSub q "radius" || containsSub q "how far"
    || containsSub q "minimum" || containsSub q "fee" || containsWE q "charge"

/-- JS `/\bparking|park\b/.test q` (line 194). -/
def parkingTest (q : String) : Bool :=
  containsWB q "parking" || containsWE q "park"

/-- JS `/\bpay|payment|cash|card|debit|atm|jane ?pay\b/.test q` (line 199);
`jane ?pay` is the two literals with and without the space. -/
def payTest (q : String) : Bool :=
  containsWB q "pay" || containsSub q "payment" || containsSub q "cash"
    || containsSub q "card" || containsSub q "debit" || containsSub q "atm"
    || containsWE q "jane pay" || containsWE q "janepay"

/-- JS `/\bdeal|special|discount|offer|promotion|promo|promos\b/.test q` (line 204). -/
def dealTest (q : String) : Bool :=
  containsWB q "deal" || containsSub q "special" || containsSub q "discount"
    || containsSub q "offer" || containsSub q "promotion" || containsSub q "promo"
    || containsWE q "promos"

/-- JS `/\breturn|exchange|refund|defective|replace|swap\b/.test q` (line 209). -/
def returnsTest (q : String) : Bool :=
  containsWB q "return" || containsSub q "exchange" || containsSub q "refund"
    || containsSub q "defective" || containsSub q "replace" || containsWE q "swap"

/-- JS `/\bvendor|brand|wholesale|distributor|carry my product|buyer\b/.test q`
(line 214). -/
def vendorTest (q : String) : Bool :=
  containsWB q "vendor" || containsSub q "brand" || containsSub q "wholesale"
    || containsSub q "distributor" || containsSub q "carry my product"
    || containsWE q "buyer"

/-- JS `/\bdemo|activation|in-?store|pop-?up|brand day|sampling|event\b/.test q`
(line 219). -/
def demoTest (q : String) : Bool :=
  containsWB q "demo" || containsSub q "activation" || containsSub q "in-store"
    || containsSub q "instore" || containsSub q "pop-up" || containsSub q "popup"
    || containsSub q "brand day" || containsSub q "sampling" || containsWE q "event"

/-- JS `handleLocalIntent(text)` of server.js segment 1 (lines 146-224):
lower-case the utterance, then the first matching branch wins; `null`
(here `none`) lets the OpenAI fallback handle it. -/
def handleLocalIntentV1 (text : String) : Option String :=
  let q := strLower text
  if hoursTest q then
    some (HOURS_V1 ++ " " ++ LAST_CALL_V1 ++ " Anything else I can help with?")
  else if addressTest q then
    some ("We’re located at " ++ ADDRESS_V1 ++ "." ++
      " For directions, you can use this link: " ++ MAP_URL_V1)
  else if idTest q then
    some (ID_RULES_V1 ++ " " ++ MED_PTS_V1)
  else if deliveryTestV1 q then
    some (DELIVERY_V1 ++ " " ++ DELIV_MIN_V1 ++ "." ++ " " ++ DELIV_FEE_V1 ++
      " " ++ LAST_CALL_V1 ++ " Share your address to confirm coverage.")
  else if parkingTest q then
    some PARKING_V1
  else if payTest q then
    some (PAYMENT_V1 ++ " Anything else I can help with?")
  else if dealTest q then
    some (SPECIALS_V1 ++ " Would you like any help finding something specific?")
  else if returnsTest q then
    some RETURNS_V1
  else if vendorTest q then
    some VENDOR_INFO_V1
  else if demoTest q then
    some VENDOR_DEMO_V1
  else none

/-- A parsed Conversation Relay event, by its `type` field. -/
inductive RelayMsg where
  | setup (sessionId callSid : String)
  | prompt (voicePrompt : String)
  | interrupt
  | dtmf (digit : String)
  | error (description : String)
  | other (type : String)
deriving DecidableEq, Repr

/-- An inbound websocket frame: either its payload parsed as JSON, or the
raw text when `JSON.parse` threw. -/
inductive Frame where
  | json (msg : RelayMsg)
  | malformed (raw : String)
deriving DecidableEq, Repr

/-- One outbound `{ type: "text", token, last }` event handed to `safeSend`. -/
structure TextOut where
  token : String
  last : Bool
deriving DecidableEq, Repr

/-- The apology sent when no OpenAI key is configured (server.js line 101). -/
def apologyV1 : String :=
  "Sorry, I’m having trouble reaching our assistant right now. You can ask about store hours, our address, ID rules, or delivery areas."

/-- The graceful fallback sent when the OpenAI call throws (line 114). -/
def fallbackV1 : String :=
  CN_HOURS ++ " Our address is " ++ CN_ADDRESS ++ ". " ++ CN_ID_RULES ++ " " ++ CN_DELIVERY

/-- The `twilioWS.on("message")` handler of server.js segment 1
(lines 78-137), as the list of events it passes to `safeSend`:
`hasKey` is whether `OPENAI_API_KEY` is set, and `upstream` the outcome of
`askOpenAI` (its resolved reply, or the thrown error).  A frame that fails
`JSON.parse` returns immediately; a `prompt` with empty `voicePrompt` is
falsy and falls through to the no-op branches. -/
def handlerV1 (hasKey : Bool) (upstream : Except String String) (fr : Frame) :
    List TextOut :=
  match fr with
  | .malformed _ => []
  | .json m =>
    match m with
    | .prompt vp =>
      if vp = "" then []
      else
        let userText := strTrim vp
        match handleLocalIntentV1 userText with
        | some localReply => [⟨localReply, true⟩]
        | none =>
          if !hasKey then [⟨apologyV1, true⟩]
          else
            match upstream with
            | .ok answer => [⟨answer, true⟩]
            | .error _ => [⟨fallbackV1, true⟩]
    | _ => []

/-! ## Variant 3 (server.js third segment): zip-only relay -/

/-- An inbound frame as seen by `extractText` (server.js lines 753-761):
either valid JSON — of which only the `content`/`text`/`utterance` fields
are consulted — or raw text after a parse failure.  `raw` is always the full
payload text. -/
inductive Frame3 where
  | jsonObj (content text utterance : Option String) (raw : String)
  | notJson (raw : String)
deriving DecidableEq, Repr

/-- First truthy (present and non-empty) string, else the default: the JS
chain `obj?.content || obj?.text || obj?.utterance || payload.toString()`. -/
def firstTruthyStr : List (Option String) → String → String
  | [], d => d
  | o :: rest, d =>
    match o with
    | some s => if s = "" then firstTruthyStr rest d else s
    | none => firstTruthyStr rest d

/-- JS `extractText(payload)` (server.js lines 753-761): on a parse failure
the raw payload text itself is returned. -/
def extractText (fr : Frame3) : String :=
  match fr with
  | .jsonObj c t u raw => firstTruthyStr [c, t, u] raw
  | .notJson raw => raw

/-- JS delivery-intent detector of the zip-only relay (server.js line 771):
`/(delivery|deliver|minimum|min|fee|cost|lead ?time|eta|how long)/.test t` —
plain substrings, no word boundaries. -/
def asksDeliveryV3 (t : String) : Bool :=
  containsSub t "delivery" || containsSub t "deliver" || containsSub t "minimum"
    || containsSub t "min" || containsSub t "fee" || containsSub t "cost"
    || containsSub t "lead time" || containsSub t "leadtime" || containsSub t "eta"
    || containsSub t "how long"

/-- The zip codes the zip-only relay extracts:
`[...new Set(t.match(/\b\d{5}\b/g) || [])]` (server.js line 772). -/
def zipsOfV3 (t : String) : List String :=
  firstDedup (fiveDigitMatches t)

/-- The `ws.on("message")` handler of the zip-only relay (server.js lines
766-792), as the list of strings passed to `ws.send`.  `outputJson` is
`CN_OUTPUT_FORMAT === "json"` (default false).  Any frame that does not
look like a delivery question with at least one zip code is ignored. -/
def handlerV3 (tbl : ZipTable) (outputJson : Bool) (fr : Frame3) : List String :=
  let t := strLower (strTrim (extractText fr))
  let zips := zipsOfV3 t
  if asksDeliveryV3 t && !zips.isEmpty then
    match zips.filterMap (buildZipJSON tbl) with
    | [] =>
      [if outputJson then "[]"
       else "I couldn\x27t find those zip codes. Can you try another?"]
    | item :: rest =>
      if outputJson then [jsonStringifyItems (item :: rest)]
      else [buildZipSpoken tbl item.zip]
  else []

/-! ## Variant B (part_000 second segment; shared verbatim with part_003):
zip-aware local intents, sanitizer, brand voice -/

def HOURS_B : String := HOURS_V1

def ID_RULES_B : String := ID_RULES_V1

def DELIVERY_B : String := DELIVERY_V1

def DELIV_MIN_B : String := DELIV_MIN_V1

def DELIV_FEE_B : String := DELIV_FEE_V1

/-- Variant B `LAST_CALL` default (part_000 lines 257-259): ends at
"next day.", without segment 1's closing exhortation. -/
def LAST_CALL_B : String :=
  "Last call for delivery is 8:15 PM daily. Orders placed after that time, or from distant locations, may be scheduled for the next day."

def MED_PTS_B : String := MED_PTS_V1

def PARKING_B : String := PARKING_V1

def PAYMENT_B : String :=
  "We accept cash and JanePay for both in-store and delivery orders. If you need cash, we’ve got two ATMs in-store."

def SPECIALS_B : String :=
  "To check out today’s deals, just visit crystalnugs.com — our daily specials appear automatically. Deals change every day."

def RETURNS_B : String :=
  "Crystal Nugs may exchange most defective products within 24 hours of purchase when returned in original packaging with a valid receipt, per California DCC regulations."

def VENDOR_INFO_B : String :=
  "Vendors and brands can email chris at crystal nugs dot com — that\x27s C-H-R-I-S at crystal nugs dot com — with your catalog, best pricing, and what makes your brand stand out. Our purchasing team reviews submissions weekly."

def VENDOR_DEMO_B : String :=
  "If you’d like to schedule an in-store demo or brand activation at Crystal Nugs, please email our demo coordinator at caprice at crystal nugs dot com — that\x27s C-A-P-R-I-C-E at crystal nugs dot com — with your preferred dates, time slots, and sample information. Our events team will confirm availability and handle compliance details."

def WEBSITE_B : String := "https://www.crystalnugs.com"

/-- Variant B `MAP_URL` default (part_000 lines 291-293) — a spoken
description, not a link. -/
def MAP_URL_B : String :=
  "Crystal Nugs is at 2300 J Street in Midtown Sacramento — the neon green building on the corner of J and 23rd."

/-- One record of `DELIVERY_TABLE` (part_000 lines 298-378), after the
module-level normalisation that fills a missing `window` from
`computeEtaWindow` — `window` may still be `""` under an env override,
which the reply branch treats as missing. -/
structure DRec where
  zip : String
  minimum : ℚ
  fee : ℚ
  window : String
deriving DecidableEq, Repr

/-- JS `computeEtaWindow(minimum, zip)` (part_000 lines 602-610); the `zip`
parameter is unused in the source, and `Number(minimum) || 0` is the
identity on a rational input. -/
def computeEtaWindow (minimum : ℚ) : String :=
  if minimum ≤ 40 then "30–60 minutes"
  else if minimum ≤ 50 then "45–90 minutes"
  else if minimum ≤ 70 then "60–120 minutes"
  else if minimum ≤ 90 then "75–150 minutes"
  else if minimum ≤ 110 then "90–180 minutes"
  else "120–240 minutes"

/-- JS `deliveryByZip(zip)` (part_000 line 589): `find` on the table. -/
def deliveryByZip (tbl : List DRec) (zip : String) : Option DRec :=
  tbl.find? (fun r => r.zip == zip)

/-- JS `/\b(min|minimum|order minimum|what.*minimum)\b/.test q`
(part_000 line 487): the group boundaries apply to every alternative. -/
def asksMin (q : String) : Bool :=
  containsWBWE q "min" || containsWBWE q "minimum" || containsWBWE q "order minimum"
    || whatMinTest q

/-- JS `/\b(fee|delivery fee|charge|cost)\b/.test q` (line 488). -/
def asksFee (q : String) : Bool :=
  containsWBWE q "fee" || containsWBWE q "delivery fee" || containsWBWE q "charge"
    || containsWBWE q "cost"

/-- JS `/\bdeliver|delivery|zone|area|order|eta|time|how long|arrive\b/.test q`
(line 489). -/
def asksDeliveryB (q : String) : Bool :=
  containsWB q "deliver" || containsSub q "delivery" || containsSub q "zone"
    || containsSub q "area" || containsSub q "order" || containsSub q "eta"
    || containsSub q "time" || containsSub q "how long" || containsWE q "arrive"

/-- JS `/\bwebsite|site|url|online|menu\b/.test q` (line 512). -/
def websiteTestB (q : String) : Bool :=
  containsWB q "website" || containsSub q "site" || containsSub q "url"
    || containsSub q "online" || containsWE q "menu"

/-- JS `/\bdeliver|delivery|zone|area|minimum|fee|charge\b/.test q` (line 514). -/
def deliveryTest2B (q : String) : Bool :=
  containsWB q "deliver" || containsSub q "delivery" || containsSub q "zone"
    || containsSub q "area" || containsSub q "minimum" || containsSub q "fee"
    || containsWE q "charge"

/-- JS `/\bdeal|special|discount|offer|promotion|promo\b/.test q` (line 517). -/
def dealTestB (q : String) : Bool :=
  containsWB q "deal" || containsSub q "special" || containsSub q "discount"
    || containsSub q "offer" || containsSub q "promotion" || containsWE q "promo"

/-- JS `/\bvendor|brand|wholesale|distributor|buyer\b/.test q` (line 519). -/
def vendorTestB (q : String) : Bool :=
  containsWB q "vendor" || containsSub q "brand" || containsSub q "wholesale"
    || containsSub q "distributor" || containsWE q "buyer"

/-- JS `/\bdemo|activation|in-?store|pop-?up|event\b/.test q` (line 520). -/
def demoTestB (q : String) : Bool :=
  containsWB q "demo" || containsSub q "activation" || containsSub q "in-store"
    || containsSub q "instore" || containsSub q "pop-up" || containsSub q "popup"
    || containsWE q "event"

/-- The window actually spoken: `rec.window || computeEtaWindow(rec.minimum)`
(part_000 line 498). -/
def winOf (rec : DRec) : String :=
  if rec.window = "" then computeEtaWindow rec.minimum else rec.window

/-- The zip-specific reply template of part_000 line 499. -/
def zipReplyB (zp : String) (rec : DRec) : String :=
  "For ZIP " ++ speakZip zp ++ ": estimated delivery " ++ winOf rec ++
    ". Delivery minimum " ++ formatMoney rec.minimum ++ ". Delivery fee " ++
    formatMoney rec.fee ++ ". " ++ LAST_CALL_B

/-- JS `handleLocalIntent(q)` of part_000 segment B (lines 485-522).  The
caller passes the utterance already lower-cased.  `tbl` is `DELIVERY_TABLE`
(the default table, or the `CN_DELIVERY_TABLE` override). -/
def handleLocalIntentB (tbl : List DRec) (q : String) : Option String :=
  let maybeZip := extractZip q
  if asksMin q || asksFee q || asksDeliveryB q then
    match maybeZip with
    | some zp =>
      match deliveryByZip tbl zp with
      | some rec => some (zipReplyB zp rec)
      | none =>
        some ("For ZIP " ++ speakZip zp ++
          ": I don’t have a set delivery policy. Please share a nearby ZIP or ask for a human and I’ll connect you.")
    | none =>
      some "What’s your 5-digit ZIP so I can confirm your delivery window, minimum, and fee? For example: 9-5-8-1-6."
  else if hoursTest q then some (HOURS_B ++ " " ++ LAST_CALL_B)
  else if addressTest q then some MAP_URL_B
  else if websiteTestB q then some "You can visit us online at Crystal Nugs dot com."
  else if idTest q then some (ID_RULES_B ++ " " ++ MED_PTS_B)
  else if deliveryTest2B q then some (DELIVERY_B ++ " " ++ DELIV_MIN_B ++ " " ++ DELIV_FEE_B)
  else if parkingTest q then some PARKING_B
  else if payTest q then some PAYMENT_B
  else if dealTestB q then some SPECIALS_B
  else if returnsTest q then some RETURNS_B
  else if vendorTestB q then some VENDOR_INFO_B
  else if demoTestB q then some VENDOR_DEMO_B
  else none

/-! ## The sanitizer `toSpokenText` (part_000 lines 613-622, verbatim in
part_003 lines 821-833): five global regex replaces in order. -/

/-- The expansions of `/https?:\/\/(www\.)?crystalnugs\.com\/?/i`, longest
first at each start position (greediness of `s?`, `(www\.)?`, `\/?`). -/
def schemeDomainPats : List (List Char) :=
  ["https://www.crystalnugs.com/", "https://www.crystalnugs.com",
   "https://crystalnugs.com/", "https://crystalnugs.com",
   "http://www.crystalnugs.com/", "http://www.crystalnugs.com",
   "http://crystalnugs.com/", "http://crystalnugs.com"].map String.data

/-- The expansions of `/https?:\/\//i`. -/
def schemePats : List (List Char) :=
  ["https://", "http://"].map String.data

/-- Length of the first pattern of `pats` matching (case-insensitively) at
the head of `s`. -/
def firstPatLen (pats : List (List Char)) (s : List Char) : Option Nat :=
  pats.findSome? (fun p => if listPrefixCI p s then some p.length else none)

/-- Replace pass 1: scheme plus own domain becomes the spoken phrase.  The
`Nat` argument counts match characters still to consume. -/
def tstP1Go : Nat → List Char → List Char
  | _, [] => []
  | skip+1, _ :: r => tstP1Go skip r
  | 0, c :: r =>
    match firstPatLen schemeDomainPats (c :: r) with
    | some n => "Crystal Nugs dot com".data ++ tstP1Go (n - 1) r
    | none => c :: tstP1Go 0 r

/-- Replace pass for one `\b`-delimited case-insensitive literal (passes 2
and 3: `www.crystalnugs.com` and bare `crystalnugs.com`). -/
def tstWordGo (pat repl : List Char) : Option Char → Nat → List Char → List Char
  | _, _, [] => []
  | _, skip+1, c :: r => tstWordGo pat repl (some c) skip r
  | prev, 0, c :: r =>
    if boundaryL prev c && listPrefixCI pat (c :: r) && boundaryREnd pat (c :: r)
    then repl ++ tstWordGo pat repl (some c) (pat.length - 1) r
    else c :: tstWordGo pat repl (some c) 0 r

/-- The `[a-z0-9._%+-]` class of the e-mail regex, case-insensitive. -/
def isEmailChar (c : Char) : Bool :=
  let l := c.toLower
  (('a' ≤ l && l ≤ 'z') || ('0' ≤ l && l ≤ '9')
    || l = '.' || l = '_' || l = '%' || l = '+' || l = '-')

/-- Replace pass 4: `/\b([a-z0-9._%+-]+)@crystalnugs\.com\b/i` becomes
`<user> at crystal nugs dot com`, the captured user part kept verbatim. -/
def tstP4Go : Option Char → Nat → List Char → List Char
  | _, _, [] => []
  | _, skip+1, c :: r => tstP4Go (some c) skip r
  | prev, 0, c :: r =>
    let run := (c :: r).takeWhile isEmailChar
    let tailPart := "@crystalnugs.com".data
    if !run.isEmpty && boundaryL prev c
        && listPrefixCI tailPart ((c :: r).drop run.length)
        && (match ((c :: r).drop (run.length + tailPart.length)).head? with
            | none => true
            | some d => !(isWordChar d))
    then run ++ " at crystal nugs dot com".data
      ++ tstP4Go (some c) (run.length + tailPart.length - 1) r
    else c :: tstP4Go (some c) 0 r

/-- Replace pass 5: strip any remaining `http://` / `https://` prefix. -/
def tstP5Go : Nat → List Char → List Char
  | _, [] => []
  | skip+1, _ :: r => tstP5Go skip r
  | 0, c :: r =>
    match firstPatLen schemePats (c :: r) with
    | some n => tstP5Go (n - 1) r
    | none => c :: tstP5Go 0 r

/-- JS `toSpokenText(text)`: the five replaces in source order (the bare
domain is rewritten before the e-mail rule, so an address at the business
domain keeps its literal `@`). -/
def toSpokenText (text : String) : String :=
  if text = "" then ""
  else
    ⟨tstP5Go 0 (tstP4Go none 0
      (tstWordGo "crystalnugs.com".data "Crystal Nugs dot com".data none 0
        (tstWordGo "www.crystalnugs.com".data "Crystal Nugs dot com".data none 0
          (tstP1Go 0 text.data))))⟩

/-! ## Brand voice (part_000 lines 625-646): sanitize, trim, and tidy
whitespace and punctuation (the `USE_SSML` flag defaults to false). -/

/-- Pass `/\s+/g → " "`: collapse every whitespace run to one space. -/
def collapseWSGo : Bool → List Char → List Char
  | _, [] => []
  | inRun, c :: r =>
    if c.isWhitespace then
      if inRun then collapseWSGo true r else ' ' :: collapseWSGo true r
    else c :: collapseWSGo false r

/-- Pass `/\s-\s/g → " — "`. -/
def dashFixGo : List Char → List Char
  | c :: '-' :: d :: r =>
    if c.isWhitespace && d.isWhitespace then ' ' :: '—' :: ' ' :: dashFixGo r
    else c :: dashFixGo ('-' :: d :: r)
  | c :: r => c :: dashFixGo r
  | [] => []

/-- Pass `/:\s+/g → ": "`; the `Bool` marks that a matched whitespace run is
being consumed. -/
def colonFixGo : Bool → List Char → List Char
  | _, [] => []
  | skipping, c :: r =>
    if skipping && c.isWhitespace then colonFixGo true r
    else if c = ':' && (match r.head? with | some d => d.isWhitespace | none => false)
    then ':' :: ' ' :: colonFixGo true r
    else c :: colonFixGo false r

/-- Pass `/,{2,}/g → ","`. -/
def commaFixGo : Bool → List Char → List Char
  | _, [] => []
  | skipping, c :: r =>
    if skipping && c = ',' then commaFixGo true r
    else if c = ',' && (match r.head? with | some ',' => true | _ => false)
    then ',' :: commaFixGo true r
    else c :: commaFixGo false r

/-- Pass `/\.\s*\./g → "."`: a dot, optional whitespace, and a second dot
collapse to one dot; scanning resumes after the second dot. -/
def dotFixGo : Nat → List Char → List Char
  | _, [] => []
  | skip+1, _ :: r => dotFixGo skip r
  | 0, c :: r =>
    if c = '.' && (match (r.dropWhile Char.isWhitespace).head? with
                   | some '.' => true | _ => false)
    then '.' :: dotFixGo ((r.takeWhile Char.isWhitespace).length + 1) r
    else c :: dotFixGo 0 r

/-- Pass `/\s{2,}/g → " "`. -/
def multiSpaceGo : Bool → List Char → List Char
  | _, [] => []
  | skipping, c :: r =>
    if skipping && c.isWhitespace then multiSpaceGo true r
    else if c.isWhitespace && (match r.head? with | some d => d.isWhitespace | none => false)
    then ' ' :: multiSpaceGo true r
    else c :: multiSpaceGo false r

/-- JS `brandVoice(raw)` with `USE_SSML` false: `toSpokenText`, `trim`, then
the six tidy-up replaces in source order. -/
def brandVoice (raw : String) : String :=
  let cleaned := strTrim (toSpokenText raw)
  ⟨multiSpaceGo false (dotFixGo 0 (commaFixGo false (colonFixGo false
    (dashFixGo (collapseWSGo false cleaned.data)))))⟩

/-- The no-key apology of variant B (part_000 line 466). -/
def apologyB : String := "Sorry, I’m having trouble connecting right now."

/-- The upstream-failure apology of variant B (part_000 line 475). -/
def busyB : String := "Sorry, our assistant is currently busy. Please call back shortly."

/-- The `twilioWS.on("message")` handler of part_000 segment B (lines
450-478), as the list of events handed to `safeSend`: every outbound token
is wrapped in `brandVoice`.  The handler lower-cases the trimmed utterance
before classification. -/
def handlerB (tbl : List DRec) (hasKey : Bool) (upstream : Except String String)
    (fr : Frame) : List TextOut :=
  match fr with
  | .malformed _ => []
  | .json m =>
    match m with
    | .prompt vp =>
      if vp = "" then []
      else
        let userText := strLower (strTrim vp)
        match handleLocalIntentB tbl userText with
        | some localReply => [⟨brandVoice localReply, true⟩]
        | none =>
          if !hasKey then [⟨brandVoice apologyB, true⟩]
          else
            match upstream with
            | .ok answer => [⟨brandVoice answer, true⟩]
            | .error _ => [⟨brandVoice busyB, true⟩]
    | _ => []

/-! ## safeSend (server.js lines 267-272, part_000 lines 567-570, part_002
lines 211-216, part_003 lines 773-780) -/

/-- The `OPEN` ready-state constant of the `ws` library. -/
def wsOPEN : Nat := 1

/-- What `safeSend` needs of a websocket handle: its `readyState` and the
behaviour of `send` (which may throw). -/
structure WSHandle where
  readyState : Nat
  sendOutcome : String → Except String Unit

/-- Observable outcome of one `safeSend` call. -/
inductive SendEffect where
  | noop
  | sent (payload : String)
  | errorLogged (msg : String)
deriving DecidableEq, Repr

/-- JS `safeSend(ws, obj)`: a null socket or one whose `readyState` is not
`OPEN` is ignored; otherwise `JSON.stringify` (whose outcome, a payload or a
throw, is `ser`) and `send` run inside `try`, and any error is logged.  The
function never lets an exception escape, which is why its result type has no
failure constructor beyond the logged error. -/
def safeSend (ws : Option WSHandle) (ser : Except String String) : SendEffect :=
  match ws with
  | none => .noop
  | some h =>
    if h.readyState ≠ wsOPEN then .noop
    else
      match ser with
      | .error e => .errorLogged e
      | .ok payload =>
        match h.sendOutcome payload with
        | .error e => .errorLogged e
        | .ok _ => .sent payload

/-! ## Socket pair lifecycle (part_001 lines 74-84, part_002 lines 353-386
and 572-624) -/

/-- Events that drive the paired caller/model socket lifecycle: the caller
socket's `close` handler, the model socket's `close` handler, the `stop`
media event (part_002 segment C), and a failed session initialisation
(the `catch` of `wss.on("connection")`). -/
inductive PairEvent where
  | msgTraffic
  | twilioClose
  | openaiClose
  | stopFrame
  | initError
deriving DecidableEq, Repr

/-- Whether each socket of the pair is open. -/
structure PairState where
  twilioOpen : Bool
  openaiOpen : Bool
deriving DecidableEq, Repr

/-- One step of the pair lifecycle, per the handlers in the source: message
traffic leaves both sockets as they are; `twilioWS.on("close")` runs
`openaiWS?.close()`; `openaiWS.on("close")` only logs; the `stop` event and
the init `catch` close both sockets. -/
def pairStep (s : PairState) (e : PairEvent) : PairState :=
  match e with
  | .msgTraffic => s
  | .twilioClose => ⟨false, false⟩
  | .openaiClose => ⟨s.twilioOpen, false⟩
  | .stopFrame => ⟨false, false⟩
  | .initError => ⟨false, false⟩

/-- The pair state reached from a freshly connected session (both sockets
open) after a sequence of events. -/
def pairRun (evs : List PairEvent) : PairState :=
  evs.foldl pairStep ⟨true, true⟩

/-! ## Concrete fixtures used by closed theorems -/

/-- The rational literal `1.99`, in normalised constructor form. -/
def fee199 : ℚ := Rat.mk' 199 100 (by decide) (by decide)

/-- A one-row pricing table: the end-to-end scenario row
`{"zip":"95816","min":40,"fee":1.99}` after loading. -/
def sampleZipTable : ZipTable := [("95816", ⟨40, fee199, none, none⟩)]

/-- A one-record delivery table carrying an integral fee of `2`, as
installable through the `CN_DELIVERY_TABLE` environment override. -/
def sampleDeliveryTable : List DRec := [⟨"95816", 40, 2, "30–60 minutes"⟩]

/-- The reply variant 1 produces for an address question: the raw Google
Maps link is interpolated into the outbound text. -/
def mapsLinkReply : String :=
  "We’re located at 2300 J Street, Sacramento, CA 95816. For directions, you can use this link: https://maps.google.com/?q=2300+J+Street,+Sacramento,+CA+95816"

/-- The wire text of a Conversation Relay `prompt` event carrying the
non-empty caller utterance "hello" (a JSON object with neither a `content`,
`text` nor `utterance` field). -/
def promptHelloRaw : String :=
  "\x7b\"type\":\"prompt\",\"voicePrompt\":\"hello\"\x7d"

/-- The single-zip spoken reply for the sample table row. -/
def sampleSpoken : String :=
  "For zip code 9-5-8-1-6, the delivery minimum is $40, the delivery fee is $1.99, and the delivery time is Generally 30 min to 2 hours."

/-! ## Helper lemmas -/

theorem strData_append (s t : String) : (s ++ t).data = s.data ++ t.data := by
  cases s; cases t; rfl

theorem strAppend_assoc (a b c : String) : (a ++ b) ++ c = a ++ (b ++ c) := by
  cases a; cases b; cases c
  exact congrArg String.mk (List.append_assoc _ _ _)

theorem listPrefix_append (l m : List Char) : listPrefix l (l ++ m) = true := by
  induction l with
  | nil => rfl
  | cons c cs ih => simp [listPrefix, ih]

theorem strEndsWith_append (x y : String) : strEndsWith (x ++ y) y = true := by
  unfold strEndsWith
  rw [strData_append, List.reverse_append]
  exact listPrefix_append _ _

theorem strDropRight_append3 (x : String) : strDropRight (x ++ ".00") 3 = x := by
  unfold strDropRight
  rw [strData_append]
  have h : (x.data ++ (".00").data).length - 3 = x.data.length := by
    rw [List.length_append]
    rfl
  rw [h, List.take_left]

theorem twoDigits_length : ∀ k, k < 100 → (twoDigits k).length = 2 := by decide

theorem roundCents_natCast (n : ℕ) : roundCents ((n : ℕ) : ℚ) = ((100 * n : ℕ) : ℤ) := by
  unfold roundCents
  rw [Rat.num_natCast, Rat.den_natCast]
  push_cast
  omega

theorem toFixed2_natCast (n : ℕ) :
    toFixed2 ((n : ℕ) : ℚ) = toString n ++ ".00" := by
  unfold toFixed2
  rw [roundCents_natCast]
  rw [if_neg (Int.not_lt.mpr (Int.natCast_nonneg _))]
  rw [Int.toNat_natCast]
  unfold toFixed2Nat
  rw [Nat.mul_div_cancel_left n (by norm_num : (0:ℕ) < 100), Nat.mul_mod_right]
  rw [strAppend_assoc]
  rfl

theorem formatMoney_natCast (n : ℕ) : formatMoney ((n : ℕ) : ℚ) = "$" ++ toString n := by
  unfold formatMoney
  rw [toFixed2_natCast]
  rw [if_pos (strEndsWith_append _ _)]
  rw [strDropRight_append3]

theorem toFixed2_decimals (q : ℚ) :
    ∃ ip fp, toFixed2 q = ip ++ "." ++ fp ∧ fp.length = 2 := by
  have hd : toFixed2 q =
      if roundCents q < 0 then "-" ++ toFixed2Nat (-(roundCents q)).toNat
      else toFixed2Nat (roundCents q).toNat := rfl
  rw [hd]
  split
  · refine ⟨"-" ++ toString ((-(roundCents q)).toNat / 100),
      twoDigits ((-(roundCents q)).toNat % 100), ?_, ?_⟩
    · unfold toFixed2Nat
      rw [← strAppend_assoc, ← strAppend_assoc]
    · exact twoDigits_length _ (Nat.mod_lt _ (by norm_num))
  · refine ⟨toString ((roundCents q).toNat / 100),
      twoDigits ((roundCents q).toNat % 100), rfl, ?_⟩
    exact twoDigits_length _ (Nat.mod_lt _ (by norm_num))

theorem firstDedupFrom_nodup :
    ∀ (l seen : List String),
      (firstDedupFrom seen l).Nodup ∧ ∀ z ∈ firstDedupFrom seen l, z ∉ seen := by
  intro l
  induction l with
  | nil => intro seen; exact ⟨List.nodup_nil, by intro z hz; cases hz⟩
  | cons x rest ih =>
    intro seen
    by_cases hx : x ∈ seen
    · simpa [firstDedupFrom, hx] using ih seen
    · have h2 := ih (x :: seen)
      refine ⟨?_, ?_⟩
      · simp only [firstDedupFrom, hx, if_false, List.nodup_cons]
        exact ⟨fun hmem => (h2.2 x hmem) (List.mem_cons_self x seen), h2.1⟩
      · intro z hz
        simp only [firstDedupFrom, hx, if_false, List.mem_cons] at hz
        rcases hz with rfl | hz
        · exact hx
        · intro hzseen
          exact (h2.2 z hz) (List.mem_cons_of_mem _ hzseen)

theorem firstDedupFrom_subset :
    ∀ (l seen : List String) (z : String), z ∈ firstDedupFrom seen l → z ∈ l := by
  intro l
  induction l with
  | nil => intro seen z hz; cases hz
  | cons x rest ih =>
    intro seen z hz
    by_cases hx : x ∈ seen
    · simp only [firstDedupFrom, hx, if_true] at hz
      exact List.mem_cons_of_mem _ (ih seen z hz)
    · simp only [firstDedupFrom, hx, if_false, List.mem_cons] at hz
      rcases hz with rfl | hz
      · exact List.mem_cons_self _ _
      · exact List.mem_cons_of_mem _ (ih (x :: seen) z hz)

theorem stripNonDigits_idem (s : String) :
    stripNonDigits (stripNonDigits s) = stripNonDigits s := by
  unfold stripNonDigits
  exact congrArg String.mk (by simp [List.filter_filter])

theorem buildZipRecord_eq (tbl : ZipTable) (z : String) :
    buildZipRecord tbl z =
      match lookupTbl tbl (stripNonDigits z) with
      | none => none
      | some row => some ⟨stripNonDigits z, row.fee, row.min, deliveryTimeText row⟩ := rfl

/-- Unfolding equation for the cons case of `buildZipArrayGo`. -/
theorem buildZipArrayGo_cons (tbl : ZipTable) (seen : List String) (raw : String)
    (rest : List String) :
    buildZipArrayGo tbl seen (raw :: rest)
      = if isFiveDigits (stripNonDigits raw) = false ∨ stripNonDigits raw ∈ seen
        then buildZipArrayGo tbl seen rest
        else
          match buildZipRecord tbl (stripNonDigits raw) with
          | some rec => rec :: buildZipArrayGo tbl (stripNonDigits raw :: seen) rest
          | none => buildZipArrayGo tbl seen rest := rfl

/-- Unfolding equation for the cons case of `firstDedupFrom`. -/
theorem firstDedupFrom_cons (seen : List String) (z : String) (l : List String) :
    firstDedupFrom seen (z :: l)
      = if z ∈ seen then firstDedupFrom seen l
        else z :: firstDedupFrom (z :: seen) l := rfl

/-- Core refinement of `buildZipArray`: the postal codes of the produced
records are exactly the first-seen deduplication of the cleaned, five-digit,
in-table codes of the input, in order. -/
theorem buildZipArrayGo_map_zip (tbl : ZipTable) :
    ∀ (zips : List String) (seen : List String),
      (buildZipArrayGo tbl seen zips).map ZipJSON.zip
        = firstDedupFrom seen ((zips.map stripNonDigits).filter
            (fun z => isFiveDigits z && (lookupTbl tbl z).isSome)) := by
  intro zips
  induction zips with
  | nil => intro seen; rfl
  | cons raw rest ih =>
    intro seen
    rw [List.map_cons, List.filter_cons, buildZipArrayGo_cons]
    by_cases h5 : isFiveDigits (stripNonDigits raw) = true
    · by_cases hseen : stripNonDigits raw ∈ seen
      · rw [if_pos (Or.inr hseen)]
        cases hlk : (lookupTbl tbl (stripNonDigits raw)).isSome with
        | true =>
          rw [if_pos (by simp [h5, hlk])]
          rw [firstDedupFrom_cons, if_pos hseen]
          exact ih seen
        | false =>
          rw [if_neg (by simp [h5, hlk])]
          exact ih seen
      · rw [if_neg (by simp [h5, hseen])]
        rw [buildZipRecord_eq, stripNonDigits_idem]
        cases hrec : lookupTbl tbl (stripNonDigits raw) with
        | some row =>
          dsimp only
          rw [if_pos (by simp [h5, hrec])]
          rw [firstDedupFrom_cons, if_neg hseen]
          rw [List.map_cons]
          exact congrArg (List.cons _) (ih (stripNonDigits raw :: seen))
        | none =>
          dsimp only
          rw [if_neg (by simp [h5, hrec])]
          exact ih seen
    · have h5' : isFiveDigits (stripNonDigits raw) = false := by
        simpa using h5
      rw [if_pos (Or.inl h5')]
      rw [if_neg (by simp [h5'])]
      exact ih seen

theorem stripNonDigits_digits (s : String) :
    (stripNonDigits s).data.all Char.isDigit = true := by
  unfold stripNonDigits
  simp [List.all_eq_true]

theorem mem_mapSet {m : ZipTable} {k : String} {v : ZRow} {p : String × ZRow}
    (hp : p ∈ mapSet m k v) : p.1 = k ∨ p ∈ m := by
  unfold mapSet at hp
  split at hp
  · rcases List.mem_map.mp hp with ⟨q, hq, hfq⟩
    by_cases hqk : q.1 = k
    · left; rw [← hfq]; simp [hqk]
    · right; rw [← hfq]; simpa [hqk] using hq
  · rcases List.mem_append.mp hp with h | h
    · right; exact h
    · left; simp only [List.mem_singleton] at h; rw [h]

/-- Invariant propagation through a table-building fold. -/
theorem foldl_insert_inv (step : ZipTable → NormRow → ZipTable)
    (P : String × ZRow → Prop)
    (hstep : ∀ m r p, p ∈ step m r → p ∈ m ∨ P p) :
    ∀ (rows : List NormRow) (m : ZipTable),
      (∀ p ∈ m, P p) → ∀ p ∈ rows.foldl step m, P p := by
  intro rows
  induction rows with
  | nil => intro m hm p hp; exact hm p hp
  | cons r rest ih =>
    intro m hm p hp
    refine ih (step m r) ?_ p hp
    intro q hq
    rcases hstep m r q hq with h | h
    · exact hm q h
    · exact h

theorem insertRow_inv (m : ZipTable) (r : NormRow) (p : String × ZRow)
    (hp : p ∈ insertRow m r) : p ∈ m ∨ isFiveDigits p.1 = true := by
  have he : insertRow m r =
      if isFiveDigits (stripNonDigits (r.zipcode.getD "")) then
        match r.min, r.fee with
        | some mv, some fv =>
          mapSet m (stripNonDigits (r.zipcode.getD "")) ⟨mv, fv, r.lead, r.lastCall⟩
        | _, _ => m
      else m := rfl
  rw [he] at hp
  by_cases h5 : isFiveDigits (stripNonDigits (r.zipcode.getD "")) = true
  · rw [if_pos h5] at hp
    split at hp
    next mv fv hmv hfv =>
      rcases mem_mapSet hp with h | h
      · right; rw [h]; exact h5
      · left; exact h
    next => left; exact hp
  · rw [if_neg h5] at hp
    left; exact hp

theorem insertRowLoose_inv (m : ZipTable) (r : NormRow) (p : String × ZRow)
    (hp : p ∈ insertRowLoose m r) :
    p ∈ m ∨ (p.1 ≠ "" ∧ (p.1).data.all Char.isDigit = true) := by
  have he : insertRowLoose m r =
      if stripNonDigits (r.zipcode.getD "") = "" then m
      else
        match r.min, r.fee with
        | some mv, some fv =>
          mapSet m (stripNonDigits (r.zipcode.getD "")) ⟨mv, fv, r.lead, r.lastCall⟩
        | _, _ => m := rfl
  rw [he] at hp
  by_cases hne : stripNonDigits (r.zipcode.getD "") = ""
  · rw [if_pos hne] at hp
    left; exact hp
  · rw [if_neg hne] at hp
    split at hp
    next mv fv hmv hfv =>
      rcases mem_mapSet hp with h | h
      · right
        constructor
        · rw [h]; exact hne
        · rw [h]; exact stripNonDigits_digits _
      · left; exact h
    next => left; exact hp

theorem insertRows_keys (rows : List NormRow) :
    ∀ p ∈ insertRows rows, isFiveDigits p.1 = true := by
  intro p hp
  exact foldl_insert_inv insertRow (fun p => isFiveDigits p.1 = true)
    insertRow_inv rows [] (by intro q hq; cases hq) p hp

theorem insertRowsLoose_keys (rows : List NormRow) :
    ∀ p ∈ insertRowsLoose rows, p.1 ≠ "" ∧ (p.1).data.all Char.isDigit = true := by
  intro p hp
  exact foldl_insert_inv insertRowLoose _
    insertRowLoose_inv rows [] (by intro q hq; cases hq) p hp

theorem buildZipJSON_inv (tbl : ZipTable) (z : String) (rec : ZipJSON)
    (h : buildZipJSON tbl z = some rec) :
    rec.zip = stripNonDigits z ∧ (lookupTbl tbl (stripNonDigits z)).isSome = true := by
  have he : buildZipJSON tbl z =
      match lookupTbl tbl (stripNonDigits z) with
      | none => none
      | some row =>
        some ⟨stripNonDigits z, row.fee, row.min, deliveryTimeFromLead row.lead⟩ := rfl
  rw [he] at h
  cases hlk : lookupTbl tbl (stripNonDigits z) with
  | none => rw [hlk] at h; cases h
  | some row =>
    rw [hlk] at h
    cases h
    exact ⟨rfl, rfl⟩

theorem pairRun_inv :
    ∀ (evs : List PairEvent) (s : PairState),
      (s.twilioOpen = true ∨ s.openaiOpen = false) →
      ((evs.foldl pairStep s).twilioOpen = true
        ∨ (evs.foldl pairStep s).openaiOpen = false) := by
  intro evs
  induction evs with
  | nil => intro s hs; exact hs
  | cons e rest ih =>
    intro s hs
    refine ih (pairStep s e) ?_
    cases e with
    | msgTraffic => exact hs
    | twilioClose => right; rfl
    | openaiClose => right; rfl
    | stopFrame => right; rfl
    | initError => right; rfl

set_option maxRecDepth 10000

/-- Unfolding equation for the `prompt` branch of `handlerV1`. -/
theorem handlerV1_prompt (hasKey : Bool) (up : Except String String) (vp : String) :
    handlerV1 hasKey up (.json (.prompt vp))
      = if vp = "" then []
        else
          match handleLocalIntentV1 (strTrim vp) with
          | some localReply => [⟨localReply, true⟩]
          | none =>
            if !hasKey then [⟨apologyV1, true⟩]
            else
              match up with
              | .ok answer => [⟨answer, true⟩]
              | .error _ => [⟨fallbackV1, true⟩] := rfl

/-- Unfolding equation for the `prompt` branch of `handlerB`. -/
theorem handlerB_prompt (tbl : List DRec) (hasKey : Bool)
    (up : Except String String) (vp : String) :
    handlerB tbl hasKey up (.json (.prompt vp))
      = if vp = "" then []
        else
          match handleLocalIntentB tbl (strLower (strTrim vp)) with
          | some localReply => [⟨brandVoice localReply, true⟩]
          | none =>
            if !hasKey then [⟨brandVoice apologyB, true⟩]
            else
              match up with
              | .ok answer => [⟨brandVoice answer, true⟩]
              | .error _ => [⟨brandVoice busyB, true⟩] := rfl

/-- Unfolding equation for `handlerV3`. -/
theorem handlerV3_eq (tbl : ZipTable) (oj : Bool) (fr : Frame3) :
    handlerV3 tbl oj fr
      = if asksDeliveryV3 (strLower (strTrim (extractText fr)))
            && !(zipsOfV3 (strLower (strTrim (extractText fr)))).isEmpty then
          match (zipsOfV3 (strLower (strTrim (extractText fr)))).filterMap
              (buildZipJSON tbl) with
          | [] =>
            [if oj then "[]"
             else "I couldn\x27t find those zip codes. Can you try another?"]
          | item :: rest =>
            if oj then [jsonStringifyItems (item :: rest)]
            else [buildZipSpoken tbl item.zip]
        else [] := rfl

/-! ## Claims -/

/-- C1 counterexample: the zip-only relay handler (server.js lines 763-792)
receives a `prompt` relay event carrying the non-empty caller utterance
"hello" over a session with a loaded pricing table, and sends no outbound
event at all — the utterance is silently dropped, refuting the claim that
every non-empty utterance produces at least one outbound text event. -/
theorem c1_silent_drop_cx :
    handlerV3 sampleZipTable false (.jsonObj none none none promptHelloRaw) = [] := by
  decide

/-- C1 amended: in the chat-fallback variant (server.js lines 87-119) every
`prompt` event with a non-empty utterance produces at least one outbound
text event on every branch (local intent, no model key, upstream success,
upstream failure); the zip-only variant (lines 763-792) guarantees a reply
only when its delivery-intent detector fires and at least one five-digit
code is present. -/
theorem c1_no_silent_drop_amended :
    (∀ (hasKey : Bool) (up : Except String String) (vp : String), vp ≠ "" →
      1 ≤ (handlerV1 hasKey up (.json (.prompt vp))).length)
    ∧ (∀ (tbl : ZipTable) (oj : Bool) (fr : Frame3),
        asksDeliveryV3 (strLower (strTrim (extractText fr))) = true →
        zipsOfV3 (strLower (strTrim (extractText fr))) ≠ [] →
        1 ≤ (handlerV3 tbl oj fr).length) := by
  constructor
  · intro hasKey up vp hvp
    rw [handlerV1_prompt, if_neg hvp]
    cases handleLocalIntentV1 (strTrim vp) with
    | some l => simp
    | none =>
      cases hasKey with
      | false => simp
      | true => cases up <;> simp
  · intro tbl oj fr h1 h2
    rw [handlerV3_eq, h1]
    have hne : (zipsOfV3 (strLower (strTrim (extractText fr)))).isEmpty = false := by
      cases hz : zipsOfV3 (strLower (strTrim (extractText fr))) with
      | nil => exact absurd hz h2
      | cons a l => rfl
    rw [hne]
    simp only [Bool.not_false, Bool.and_self, if_true]
    cases (zipsOfV3 (strLower (strTrim (extractText fr)))).filterMap
        (buildZipJSON tbl) with
    | nil => simp
    | cons item rest => cases oj <;> simp

/-- C1 witness: both halves of the amended statement applied at concrete
inputs — an unmatched non-empty utterance in the chat variant, and a
delivery question with a zip code in the zip-only variant, each producing
one outbound event. -/
theorem c1_no_silent_drop_witness :
    1 ≤ (handlerV1 false (.error "boom") (.json (.prompt "hi"))).length
    ∧ 1 ≤ (handlerV3 [] false (.notJson "delivery 95816")).length :=
  ⟨c1_no_silent_drop_amended.1 false (.error "boom") "hi" (by decide),
   c1_no_silent_drop_amended.2 [] false (.notJson "delivery 95816")
     (by decide) (by decide)⟩

/-- C2 counterexample: the `/zones` batch pricing query (server.js lines
739-743) applied to the query string "95816,95816" returns the same resolved
code twice — it does not remove duplicate codes, refuting the claim that the
batch query's result list contains no duplicate codes. -/
theorem c2_zones_duplicates_cx :
    (zonesList sampleZipTable "95816,95816").map ZipJSON.zip = ["95816", "95816"]
    ∧ ¬ ((zonesList sampleZipTable "95816,95816").map ZipJSON.zip).Nodup :=
  ⟨by decide, by decide⟩

/-- C2 amended: `buildZipArray` (part_000 lines 172-185) returns resolved
entries whose codes are exactly the first-seen deduplication of the cleaned
five-digit in-table codes of its input — order preserved, no duplicates,
no codes absent from the table; the `/zones` batch query preserves order
and drops not-found codes but keeps duplicates from its query string. -/
theorem c2_order_dedup_amended :
    ∀ (tbl : ZipTable) (zips : List String),
      ((buildZipArray tbl zips).map ZipJSON.zip
          = firstDedup ((zips.map stripNonDigits).filter
              (fun z => isFiveDigits z && (lookupTbl tbl z).isSome)))
      ∧ ((buildZipArray tbl zips).map ZipJSON.zip).Nodup
      ∧ (∀ rec ∈ buildZipArray tbl zips, (lookupTbl tbl rec.zip).isSome = true)
      ∧ (∀ (q : String), ∀ rec ∈ zonesList tbl q,
          (lookupTbl tbl rec.zip).isSome = true) := by
  intro tbl zips
  have hmap := buildZipArrayGo_map_zip tbl zips []
  have hba : buildZipArray tbl zips = buildZipArrayGo tbl [] zips := rfl
  refine ⟨by rw [hba]; exact hmap, ?_, ?_, ?_⟩
  · rw [hba, hmap]
    exact (firstDedupFrom_nodup _ _).1
  · intro rec hrec
    have hz : rec.zip ∈ (buildZipArray tbl zips).map ZipJSON.zip :=
      List.mem_map_of_mem _ hrec
    rw [hba, hmap] at hz
    have hz2 := firstDedupFrom_subset _ _ _ hz
    have hpred := (List.mem_filter.mp hz2).2
    simp only [Bool.and_eq_true] at hpred
    exact hpred.2
  · intro q rec hrec
    rcases List.mem_filterMap.mp hrec with ⟨z, _, hz⟩
    rcases buildZipJSON_inv tbl z rec hz with ⟨hzip, hsome⟩
    rw [hzip]
    exact hsome

/-- C2 witness: the in-table guarantee of the amended statement applied to
the concrete record `buildZipArray` produces for the sample table. -/
theorem c2_order_dedup_witness :
    (lookupTbl sampleZipTable "95816").isSome = true :=
  (c2_order_dedup_amended sampleZipTable ["95816"]).2.2.1
    ⟨"95816", fee199, 40, "Generally 30 min to 2 hours"⟩ (by decide)

/-- C3 counterexample: server.js `loadZipTable` (lines 633-674) only
discards rows whose cleaned postal code is empty, so a row with the
four-digit code "9581" and finite amounts is inserted under the four-digit
key — refuting the claim that no entry with a key shorter or longer than
five digits is ever inserted. -/
theorem c3_loose_key_cx :
    loadZipTableV3 ".json"
        (.ok (.arr [⟨some "9581", some 40, some fee199, none, none⟩])) []
      = .ok [("9581", ⟨40, fee199, none, none⟩)]
    ∧ isFiveDigits "9581" = false :=
  ⟨rfl, by decide⟩

/-- C3 amended: `parseZipTable` (part_000 lines 79-114) never inserts an
entry whose key is not exactly five digits, on either the JSON or the CSV
path; the server.js `loadZipTable` row loop guarantees only that keys are
non-empty digit strings. -/
theorem c3_five_digit_keys_amended :
    (∀ ext jp rows t, parseZipTable ext jp rows = Except.ok t →
        ∀ p ∈ t, isFiveDigits p.1 = true)
    ∧ (∀ rows : List NormRow, ∀ p ∈ insertRowsLoose rows,
        p.1 ≠ "" ∧ (p.1).data.all Char.isDigit = true) := by
  constructor
  · intro ext jp rows t ht p hp
    unfold parseZipTable at ht
    by_cases hj : ext = ".json"
    · rw [if_pos hj] at ht
      cases jp with
      | ok doc =>
        injection ht with h
        subst h
        exact insertRows_keys _ p hp
      | error e => exact Except.noConfusion ht
    · rw [if_neg hj] at ht
      by_cases hc : ext = ".csv"
      · rw [if_pos hc] at ht
        injection ht with h
        subst h
        exact insertRows_keys _ p hp
      · rw [if_neg hc] at ht
        exact Except.noConfusion ht
  · intro rows p hp
    exact insertRowsLoose_keys rows p hp

/-- C3 witness: the five-digit guarantee applied to the table produced from
one well-formed row. -/
theorem c3_five_digit_keys_witness : isFiveDigits "95816" = true :=
  c3_five_digit_keys_amended.1 ".json"
    (.ok (.arr [⟨some "95816", some 40, some fee199, none, none⟩])) []
    [("95816", ⟨40, fee199, none, none⟩)] rfl
    ("95816", ⟨40, fee199, none, none⟩) (by decide)

/-- C4 confirmed: on every total-failure mode the load is reported to the
caller as an `Except.error` — an unreadable file rejects
`loadZipTableFromFile`, a non-2xx fetch rejects `loadZipTableFromUrl`, an
unparseable top level or unsupported extension rejects `parseZipTable` —
and the boot paths catch the error and leave the pricing table empty
(part_000 `bootZipTable` assigns `new Map()`; the server.js listen callback
catches the rejection with the table still at its initial empty value). -/
theorem c4_total_failure_confirmed :
    (∀ e : String, bootZipTable (.error e) = [])
    ∧ (∀ (status : Nat) (urlCsv : Bool) jp rows,
        loadZipTableFromUrl ⟨false, status, urlCsv, jp, rows⟩
          = .error ("Fetch failed " ++ toString status))
    ∧ (∀ (e : String) (rows : List NormRow),
        parseZipTable ".json" (.error e) rows = .error e)
    ∧ (∀ (jp : Except String JsonTop) (rows : List NormRow),
        parseZipTable ".txt" jp rows
          = .error "Unsupported data extension: .txt (use .json or .csv)")
    ∧ (∀ e : String, loadZipTableFromFile (.error e) = .error e)
    ∧ (∀ e : String, bootListenV3 (.error e) = []) :=
  ⟨fun _ => rfl, fun _ _ _ _ => rfl, fun _ _ => rfl, fun _ _ => rfl,
   fun _ => rfl, fun _ => rfl⟩

/-- C5 counterexample: for a row with lead 45 — not covered by the `≤ 30`
or `≥ 90` buckets — `deliveryTimeText` (part_000 lines 149-155) returns the
"1 to 2 hours" phrase, not the claimed "30 min to 2 hours" phrase; and at
lead 90 the server.js `deliveryTimeFromLead` (lines 681-686) returns
"1 to 2 hours", not the claimed "1.5 to 2.5 hours" phrase. -/
theorem c5_eta_bucket_cx :
    deliveryTimeText ⟨40, fee199, some 45, none⟩ = "Generally 1 hour to 2 hours"
    ∧ "Generally 1 hour to 2 hours" ≠ "Generally 30 min to 2 hours"
    ∧ deliveryTimeFromLead (some 90) = "Generally 1 hour to 2 hours"
    ∧ "Generally 1 hour to 2 hours"
        ≠ "Generally 1 and a half hours to 2 and a half hours" :=
  ⟨by decide, by decide, by decide, by decide⟩

/-- C5 amended: `deliveryTimeText` maps a null or zero lead to
"30 min to 2 hours", a nonzero lead `≤ 30` to "1 to 2 hours", a lead
`≥ 90` to "1.5 to 2.5 hours", and any other lead (strictly between 30 and
90) to "1 to 2 hours" — not to "30 min to 2 hours" as claimed; the
server.js `deliveryTimeFromLead` instead maps non-positive/non-finite leads
to "30 min to 2 hours", `0 < lead ≤ 30` to "1 to 2 hours",
`30 < lead ≤ 45` to "1.5 to 2.5 hours", and `lead > 45` to "1 to 2 hours". -/
theorem c5_eta_bucket_amended :
    ∀ (r : ZRow) (l : ℚ),
      (r.lead = none → deliveryTimeText r = "Generally 30 min to 2 hours")
      ∧ (r.lead = some 0 → deliveryTimeText r = "Generally 30 min to 2 hours")
      ∧ (r.lead = some l → l ≠ 0 → l ≤ 30 →
          deliveryTimeText r = "Generally 1 hour to 2 hours")
      ∧ (r.lead = some l → 90 ≤ l →
          deliveryTimeText r = "Generally 1 and a half hours to 2 and a half hours")
      ∧ (r.lead = some l → 30 < l → l < 90 →
          deliveryTimeText r = "Generally 1 hour to 2 hours")
      ∧ (deliveryTimeFromLead none = "Generally 30 min to 2 hours")
      ∧ (l ≤ 0 → deliveryTimeFromLead (some l) = "Generally 30 min to 2 hours")
      ∧ (0 < l → l ≤ 30 →
          deliveryTimeFromLead (some l) = "Generally 1 hour to 2 hours")
      ∧ (30 < l → l ≤ 45 →
          deliveryTimeFromLead (some l)
            = "Generally 1 and a half hours to 2 and a half hours")
      ∧ (45 < l →
          deliveryTimeFromLead (some l) = "Generally 1 hour to 2 hours") := by
  intro r l
  refine ⟨?_, ?_, ?_, ?_, ?_, rfl, ?_, ?_, ?_, ?_⟩
  · intro h; simp [deliveryTimeText, h]
  · intro h; simp [deliveryTimeText, h]
  · intro h hne hle; simp [deliveryTimeText, h, hne, hle]
  · intro h h90
    have hne : ¬ l = 0 := by intro h0; rw [h0] at h90; norm_num at h90
    have h30 : ¬ l ≤ 30 := by intro hc; linarith
    simp [deliveryTimeText, h, hne, h30, h90]
  · intro h hgt hlt
    have hne : ¬ l = 0 := by intro h0; rw [h0] at hgt; norm_num at hgt
    have h30 : ¬ l ≤ 30 := not_le.mpr hgt
    have h90 : ¬ 90 ≤ l := not_le.mpr hlt
    simp [deliveryTimeText, h, hne, h30, h90]
  · intro hle; simp [deliveryTimeFromLead, hle]
  · intro hpos hle
    have h0 : ¬ l ≤ 0 := not_le.mpr hpos
    simp [deliveryTimeFromLead, h0, hle]
  · intro hgt hle
    have h0 : ¬ l ≤ 0 := not_le.mpr (by linarith)
    have h30 : ¬ l ≤ 30 := not_le.mpr hgt
    simp [deliveryTimeFromLead, h0, h30, hle]
  · intro hgt
    have h0 : ¬ l ≤ 0 := not_le.mpr (by linarith)
    have h30 : ¬ l ≤ 30 := not_le.mpr (by linarith)
    have h45 : ¬ l ≤ 45 := not_le.mpr hgt
    simp [deliveryTimeFromLead, h0, h30, h45]

/-- C5 witness: the nonzero-lead `≤ 30` bucket of the amended statement at
lead 20. -/
theorem c5_eta_bucket_witness :
    deliveryTimeText ⟨40, fee199, some 20, none⟩ = "Generally 1 hour to 2 hours" :=
  (c5_eta_bucket_amended ⟨40, fee199, some 20, none⟩ 20).2.2.1 rfl
    (by decide) (by decide)

/-- C6 counterexample: in the single-zip reply of the zip-aware local intent
handler (part_000 lines 492-502), the delivery fee is rendered with
`formatMoney`, which drops a trailing ".00" — for a table entry with the
integral fee 2 the caller hears "Delivery fee $2.", and the substring
"$2.00" does not occur in the reply, refuting the claim that the fee is
always rendered with exactly two decimal places. -/
theorem c6_fee_format_cx :
    handleLocalIntentB sampleDeliveryTable "delivery minimum for 95816"
      = some ("For ZIP 9-5-8-1-6: estimated delivery 30–60 minutes. Delivery minimum $40. Delivery fee $2. "
          ++ LAST_CALL_B)
    ∧ containsSub
        ("For ZIP 9-5-8-1-6: estimated delivery 30–60 minutes. Delivery minimum $40. Delivery fee $2. "
          ++ LAST_CALL_B) "$2.00" = false
    ∧ formatMoney 2 = "$2" :=
  ⟨by decide, by decide, by decide⟩

/-- C6 amended: `toFixed2` always carries exactly two decimal places and
`formatMoney` renders an integral amount without decimals (trailing ".00"
dropped) — so in server.js `buildZipSpoken` the fee (rendered with
`toFixed(2)`) always has two decimals as claimed, while in the part_000
zip reply both the minimum and the fee go through `formatMoney`, and an
integral fee loses its ".00". -/
theorem c6_fee_format_amended :
    (∀ q : ℚ, ∃ ip fp, toFixed2 q = ip ++ "." ++ fp ∧ fp.length = 2)
    ∧ (∀ n : ℕ, formatMoney ((n : ℕ) : ℚ) = "$" ++ toString n)
    ∧ (∀ tbl z item, buildZipJSON tbl z = some item →
        buildZipSpoken tbl z
          = "For zip code " ++ zipDashed item.zip ++ ", the delivery minimum is $"
            ++ jsNumToString item.minimum ++ ", the delivery fee is $"
            ++ toFixed2 item.fee ++ ", and the delivery time is "
            ++ item.deliveryTime ++ ".")
    ∧ (∀ zp rec, zipReplyB zp rec
        = "For ZIP " ++ speakZip zp ++ ": estimated delivery " ++ winOf rec
          ++ ". Delivery minimum " ++ formatMoney rec.minimum
          ++ ". Delivery fee " ++ formatMoney rec.fee ++ ". " ++ LAST_CALL_B) := by
  refine ⟨toFixed2_decimals, formatMoney_natCast, ?_, fun zp rec => rfl⟩
  intro tbl z item h
  have he : buildZipSpoken tbl z =
      match buildZipJSON tbl z with
      | none =>
        "For zip code " ++ zipDashed z ++
          ", I couldn\x27t find a delivery zone. Can you try another zip code?"
      | some item =>
        "For zip code " ++ zipDashed item.zip ++ ", the delivery minimum is $" ++
          jsNumToString item.minimum ++ ", the delivery fee is $" ++ toFixed2 item.fee ++
          ", and the delivery time is " ++ item.deliveryTime ++ "." := rfl
  rw [he, h]

/-- C6 witness: the `buildZipSpoken` sentence for the sample table row,
with the fee 1.99 carrying its two decimals. -/
theorem c6_fee_format_witness :
    buildZipSpoken sampleZipTable "95816" = sampleSpoken :=
  (c6_fee_format_amended.2.2.1 sampleZipTable "95816"
      ⟨"95816", fee199, 40, "Generally 30 min to 2 hours"⟩ (by decide)).trans
    (by decide)

/-- C7 counterexample: variant 1 (server.js lines 78-224) sends the local
intent reply for an address question directly, with no sanitization pass —
the outbound text carries a raw `https://maps.google.com/...` link and so
contains the "http" scheme prefix, refuting the claim that every outbound
reply path is sanitized. -/
theorem c7_sanitize_cx :
    handlerV1 false (.ok "") (.json (.prompt "where is your address"))
      = [⟨mapsLinkReply, true⟩]
    ∧ containsSub mapsLinkReply "http" = true :=
  ⟨by decide, by decide⟩

/-- C7 amended: sanitization is mandatory only in the brand-voice variants
(part_000 segment B, part_003): every outbound token of that handler passes
through `brandVoice` (hence `toSpokenText`), and `toSpokenText` rewrites
the business's own domain to a spoken phrase, strips `http(s)://` prefixes,
and eliminates the bare `@crystalnugs.com` substring (though, because the
bare-domain rule runs before the e-mail rule, `chris@crystalnugs.com`
becomes "chris@Crystal Nugs dot com", keeping a literal `@`); the plain
variant sends intent replies unsanitized. -/
theorem c7_sanitize_amended :
    (∀ (tbl : List DRec) (hasKey : Bool) (up : Except String String) (fr : Frame),
      (handlerB tbl hasKey up fr).Forall (fun o => ∃ t, o.token = brandVoice t))
    ∧ toSpokenText WEBSITE_B = "Crystal Nugs dot com"
    ∧ containsSub (toSpokenText "Visit https://www.crystalnugs.com today") "http" = false
    ∧ toSpokenText "chris@crystalnugs.com" = "chris@Crystal Nugs dot com"
    ∧ containsSub (toSpokenText "chris@crystalnugs.com") "@crystalnugs.com" = false := by
  refine ⟨?_, by decide, by decide, by decide, by decide⟩
  intro tbl hasKey up fr
  cases fr with
  | malformed raw => exact trivial
  | json m =>
    cases m with
    | prompt vp =>
      rw [handlerB_prompt]
      by_cases hv : vp = ""
      · rw [if_pos hv]; exact trivial
      · rw [if_neg hv]
        cases handleLocalIntentB tbl (strLower (strTrim vp)) with
        | some l => exact ⟨l, rfl⟩
        | none =>
          cases hasKey with
          | false => exact ⟨apologyB, rfl⟩
          | true =>
            cases up with
            | ok a => exact ⟨a, rfl⟩
            | error e => exact ⟨busyB, rfl⟩
    | setup a b => exact trivial
    | interrupt => exact trivial
    | dtmf d => exact trivial
    | error e => exact trivial
    | other t => exact trivial

/-- C8 counterexample: after the model socket closes, its `close` handler
(part_001 line 83, part_002 lines 379 and 612) only logs — the reachable
state has the caller-facing socket still open with the model socket closed,
refuting the claim that closing either socket of the pair closes the other
in both directions. -/
theorem c8_pair_close_cx :
    (pairRun [PairEvent.openaiClose]).twilioOpen = true
    ∧ (pairRun [PairEvent.openaiClose]).openaiOpen = false :=
  ⟨rfl, rfl⟩

/-- C8 amended: the coupling holds in one direction — in every reachable
state of the pair lifecycle, once the caller-facing socket has closed the
model socket is closed as well (the `close` handler of the caller socket,
the `stop` event, and the init failure all close the model socket); closing
the model socket leaves the caller socket open. -/
theorem c8_pair_close_amended :
    ∀ evs : List PairEvent,
      (pairRun evs).twilioOpen = true ∨ (pairRun evs).openaiOpen = false :=
  fun evs => pairRun_inv evs ⟨true, true⟩ (Or.inl rfl)

/-- C9 counterexample: the zip-only relay's `extractText` (server.js lines
753-761) catches the `JSON.parse` failure and returns the raw payload text,
which the handler then treats as a caller utterance — for the non-JSON
frame "delivery 95816" it sends a pricing reply instead of dropping the
event, refuting the claim that a frame whose payload is not valid JSON
produces no outbound reply. -/
theorem c9_malformed_cx :
    handlerV3 sampleZipTable false (.notJson "delivery 95816") = [sampleSpoken] := by
  decide

/-- C9 amended: the chat-variant handler (server.js lines 78-80) drops a
frame whose payload fails `JSON.parse` — no outbound reply and, the handler
being a total function, no escaping exception; the zip-only variant never
throws either, but instead of dropping the frame it uses the raw payload
text as the utterance, replying whenever the delivery-intent guard fires
and staying silent otherwise. -/
theorem c9_malformed_amended :
    (∀ (raw : String) (hasKey : Bool) (up : Except String String),
        handlerV1 hasKey up (.malformed raw) = [])
    ∧ (∀ raw : String, extractText (.notJson raw) = raw)
    ∧ (∀ (tbl : ZipTable) (oj : Bool) (fr : Frame3),
        asksDeliveryV3 (strLower (strTrim (extractText fr))) = true
        ∨ handlerV3 tbl oj fr = []) := by
  refine ⟨fun _ _ _ => rfl, fun _ => rfl, ?_⟩
  intro tbl oj fr
  by_cases h : asksDeliveryV3 (strLower (strTrim (extractText fr))) = true
  · exact Or.inl h
  · right
    have hf : asksDeliveryV3 (strLower (strTrim (extractText fr))) = false := by
      simpa using h
    rw [handlerV3_eq, hf]
    simp

/-- C10 confirmed: `safeSend` is a no-op on a null socket or one whose
`readyState` is not `OPEN`; with an open socket, a serialization failure or
a throwing `send` is caught and logged; and every call ends in one of the
three benign outcomes — no exception reaches the event loop. -/
theorem c10_safe_send_confirmed :
    (∀ ser, safeSend none ser = .noop)
    ∧ (∀ (h : WSHandle) ser,
        h.readyState = wsOPEN ∨ safeSend (some h) ser = .noop)
    ∧ (∀ (h : WSHandle) e, h.readyState = wsOPEN →
        safeSend (some h) (.error e) = .errorLogged e)
    ∧ (∀ (h : WSHandle) p e, h.readyState = wsOPEN →
        h.sendOutcome p = .error e →
        safeSend (some h) (.ok p) = .errorLogged e)
    ∧ (∀ ws ser, safeSend ws ser = .noop
        ∨ (∃ p, safeSend ws ser = .sent p)
        ∨ (∃ e, safeSend ws ser = .errorLogged e)) := by
  have hss : ∀ (h : WSHandle) ser, safeSend (some h) ser
      = if h.readyState ≠ wsOPEN then SendEffect.noop
        else
          match ser with
          | .error e => SendEffect.errorLogged e
          | .ok payload =>
            match h.sendOutcome payload with
            | .error e => SendEffect.errorLogged e
            | .ok _ => SendEffect.sent payload := fun _ _ => rfl
  refine ⟨fun _ => rfl, ?_, ?_, ?_, ?_⟩
  · intro h ser
    by_cases hrs : h.readyState = wsOPEN
    · exact Or.inl hrs
    · right
      rw [hss, if_pos hrs]
  · intro h e hrs
    rw [hss, if_neg (fun hc => hc hrs)]
  · intro h p e hrs hsend
    rw [hss, if_neg (fun hc => hc hrs)]
    dsimp only
    rw [hsend]
  · intro ws ser
    cases ws with
    | none => exact Or.inl rfl
    | some h =>
      rw [hss]
      by_cases hrs : h.readyState ≠ wsOPEN
      · rw [if_pos hrs]; exact Or.inl rfl
      · rw [if_neg hrs]
        cases ser with
        | error e => exact Or.inr (Or.inr ⟨e, rfl⟩)
        | ok p =>
          cases hs : h.sendOutcome p with
          | error e =>
            dsimp only
            rw [hs]
            exact Or.inr (Or.inr ⟨e, rfl⟩)
          | ok u =>
            dsimp only
            rw [hs]
            exact Or.inr (Or.inl ⟨p, rfl⟩)

/-- C10 witness: the guard and catch branches of the confirmed statement at
concrete handles — a socket in the CONNECTING state is skipped, and a
throwing `send` on an open socket is caught and logged. -/
theorem c10_safe_send_witness :
    safeSend (some ⟨1, fun _ => Except.error "boom"⟩) (.ok "x")
      = SendEffect.errorLogged "boom" :=
  c10_safe_send_confirmed.2.2.2.1 ⟨1, fun _ => Except.error "boom"⟩ "x" "boom"
    rfl rfl
